import Mathlib

/-!
Verification development for the CollabSphereAI repository.

This file shallowly embeds the two in-scope pipelines of the repository:

* the conversation-insights pipeline of `src/app/api/meeting-complete/route.ts`
  (`computeHFSentiment`, `generateSummary`, `generateInsights`, `POST`);
* the project-plan pipeline of `src/app/api/subtasks/route.ts`
  (`createFallbackPlan`, `POST`);
* the client speech-output sequencing of
  `src/modules/call/ui/components/call-active.tsx`
  (`speakChunkAt`, `handleToggleAIMute`).

JavaScript numbers are modelled as rationals (all arithmetic in these code
paths is comparison/min/max/ratio arithmetic on scores, where exact rationals
agree with the order-theoretic behaviour the code relies on).  External calls
(hosted classifier, hosted LLM, database, HTTP fetches) are modelled as
oracle fields of an environment record; each handler additionally reports the
number of outbound network calls it performed, mirroring the call sites in
the source.
-/

/-- An apostrophe character, used to build string literals of the source. -/
def apos : String := String.mk ['\x27']

/-- JS whitespace (the ASCII part, which is all that the modelled inputs use). -/
def isJsWs (c : Char) : Bool :=
  c = ' ' || c = '\t' || c = '\n' || c = '\r' || c = '\x0b' || c = '\x0c'

/-- JavaScript `String.prototype.trim` restricted to ASCII whitespace. -/
def jsTrim (s : String) : String :=
  String.mk (((s.data.dropWhile isJsWs).reverse.dropWhile isJsWs).reverse)

/-- JavaScript `String.prototype.toLowerCase` on ASCII text. -/
def lowerStr (s : String) : String :=
  String.mk (s.data.map Char.toLower)

/-- JS truthiness of an optional string (`undefined` and `""` are falsy). -/
def jsTruthyStr : Option String → Bool
  | none => false
  | some s => s ≠ ""

/-- JS `x || d` for an optional string (`undefined`/`""` fall back to `d`). -/
def jsStrOr (o : Option String) (d : String) : String :=
  match o with
  | none => d
  | some s => if s = "" then d else s

/-- JS `x || d` for an optional natural number (`undefined`/`0` are falsy). -/
def jsNatOr (o : Option ℕ) (d : ℕ) : ℕ :=
  match o with
  | none => d
  | some n => if n = 0 then d else n

/-- JS `x || d` for an optional rational (`undefined`/`0` are falsy). -/
def jsRatOr (o : Option ℚ) (d : ℚ) : ℚ :=
  match o with
  | none => d
  | some q => if q = 0 then d else q

/-- JavaScript `Math.min` on two numbers (kernel-computable form). -/
def jsMin (a b : ℚ) : ℚ := if a ≤ b then a else b

/-- JavaScript `Math.max` on two numbers (kernel-computable form). -/
def jsMax (a b : ℚ) : ℚ := if a ≤ b then b else a

/-- The clamp `Math.min(0.95, Math.max(0.05, s))` used by the insights route. -/
def clamp0595 (q : ℚ) : ℚ := jsMin (19/20) (jsMax (1/20) q)

/-- The clamp `Math.max(0, Math.min(1, r))` used by the heuristic sentiment. -/
def clamp01 (q : ℚ) : ℚ := jsMax 0 (jsMin 1 q)

/-- JavaScript `Number.prototype.toFixed(2)` for non-negative rationals
(rounding half away from zero, which is what the scores in range use). -/
def toFixed2 (q : ℚ) : String :=
  let m : ℤ := ⌊q * 100 + 1/2⌋
  let ip := m / 100
  let fp := (m % 100).toNat
  toString ip ++ "." ++ (if fp < 10 then "0" else "") ++ toString fp

/-- Split a character list at maximal runs of `'\n'`, as JS `split(/\n+/)`
does: an empty leading/trailing piece appears when the string starts/ends
with a newline, and `""` splits to `[""]`.  Fuel-driven; the fuel is always
instantiated with `length + 1`, which suffices since every recursive call
consumes at least one character. -/
def splitNlAux : ℕ → List Char → List (List Char)
  | 0, _ => [[]]
  | f + 1, cs =>
    let piece := cs.takeWhile (· ≠ '\n')
    let rest := cs.dropWhile (· ≠ '\n')
    match rest with
    | [] => [piece]
    | _ :: rest2 => piece :: splitNlAux f (rest2.dropWhile (· = '\n'))

/-- JS `s.split(/\n+/)`. -/
def splitNl (s : String) : List String :=
  (splitNlAux (s.data.length + 1) s.data).map String.mk

/-- Split on a single separator character, as JS `s.split(sep)` (adjacent
separators produce empty pieces; no collapsing). -/
def splitCharAux (sep : Char) : ℕ → List Char → List (List Char)
  | 0, _ => [[]]
  | f + 1, cs =>
    let piece := cs.takeWhile (· ≠ sep)
    let rest := cs.dropWhile (· ≠ sep)
    match rest with
    | [] => [piece]
    | _ :: rest2 => piece :: splitCharAux sep f rest2

/-- JS `s.split(c)` for a one-character separator. -/
def splitChar (sep : Char) (s : String) : List String :=
  (splitCharAux sep (s.data.length + 1) s.data).map String.mk

/-- The part of a line before the first `':'` (JS `line.split(":")[0]`). -/
def takeUntilColon (s : String) : String :=
  String.mk (s.data.takeWhile (· ≠ ':'))

/-- Collapse whitespace runs to single spaces (JS `replace(/\s+/g, " ")`). -/
def squashWsAux : Bool → List Char → List Char
  | _, [] => []
  | prev, c :: cs =>
    if isJsWs c then
      if prev then squashWsAux true cs else ' ' :: squashWsAux true cs
    else c :: squashWsAux false cs

/-- JS `s.replace(/\s+/g, " ")`. -/
def squashWs (s : String) : String := String.mk (squashWsAux false s.data)

/-- Does `big` have `small` as a leading segment? -/
def leadsWith : List Char → List Char → Bool
  | [], _ => true
  | _ :: _, [] => false
  | c :: cs, d :: ds => c = d && leadsWith cs ds

/-- Drop a leading segment, returning the remainder when it matches. -/
def dropLead : List Char → List Char → Option (List Char)
  | [], s => some s
  | _ :: _, [] => none
  | c :: cs, d :: ds => if c = d then dropLead cs ds else none

/-- Substring containment, JS `s.includes(sub)`. -/
def containsSub (s sub : String) : Bool :=
  (List.range (s.data.length + 1)).any fun i => leadsWith sub.data (s.data.drop i)

/-- Helper for `dedupFirst`: `seen` lists the values already emitted. -/
def dedupFirstAux (seen : List String) : List String → List String
  | [] => []
  | x :: xs =>
    if seen.contains x then dedupFirstAux seen xs
    else x :: dedupFirstAux (x :: seen) xs

/-- First-occurrence-preserving deduplication (JS `Array.from(new Set(xs))`). -/
def dedupFirst (l : List String) : List String := dedupFirstAux [] l

/-! ## Data model of the meeting-complete insights route (`part_002`) -/

/-- A role suggestion entry (`role_suggestions` items of the `Insights` type).
The heuristic path pushes entries without a `reasoning` field, the LLM
backfill path pushes entries with one, so the field is optional. -/
structure RoleSuggestion where
  role : String
  user : String
  confidence : ℚ
  reasoning : Option String
deriving DecidableEq

/-- The `sentiment_analysis` sub-object.  `notes` is optional in the source
type (`notes?: string[]`); the route initialises it to `[]` in the default
object but an LLM response may omit it.  The `trend`/`participants` fields
of the source type are never written by this route and are omitted. -/
structure SentimentData where
  overall_score : ℚ
  notes : Option (List String)
deriving DecidableEq

/-- A `user -> skill -> confidence` table, as an insertion-ordered
association list (mirroring JS object property order). -/
abbrev SkillTable := List (String × List (String × ℚ))

/-- The `Insights` result type of the route. -/
structure Insights where
  source : Option String
  sentiment_analysis : SentimentData
  expertise_detection : SkillTable
  role_suggestions : List RoleSuggestion
deriving DecidableEq

/-- The default-neutral insights object `base` built at the top of
`generateInsights`. -/
def baseInsights : Insights :=
  { source := none
    sentiment_analysis := { overall_score := 1/2, notes := some [] }
    expertise_detection := []
    role_suggestions := [] }

/-- One entry of the HuggingFace SST-2 response array. -/
structure HFEntry where
  label : String
  score : ℚ
deriving DecidableEq

/-- The body of `computeHFSentiment` after a successful fetch and JSON
decode: pick the higher-scoring of the first POSITIVE/NEGATIVE entries and
invert NEGATIVE.  The argument is `none` when the API key is missing, the
fetch failed, HTTP was non-ok, or the payload was not an array (all the
paths on which the source returns `null`). -/
def computeHFSentiment (resp : Option (List HFEntry)) : Option (ℚ × String) :=
  match resp with
  | none => none
  | some entries =>
    let pos := entries.find? (fun e => e.label = "POSITIVE")
    let neg := entries.find? (fun e => e.label = "NEGATIVE")
    match pos, neg with
    | none, none => none
    | _, _ =>
      let posScore := (pos.map HFEntry.score).getD 0
      let negScore := (neg.map HFEntry.score).getD 0
      let label := if posScore ≥ negScore then "POSITIVE" else "NEGATIVE"
      let score :=
        if label = "POSITIVE" then (pos.map HFEntry.score).getD (1/2)
        else 1 - (neg.map HFEntry.score).getD (1/2)
      some (score, label)

/-- The note `HF SST-2 sentiment (label) score: s.toFixed(2)`. -/
def hfNote (label : String) (score : ℚ) : String :=
  "HF SST-2 sentiment (" ++ label ++ ") score: " ++ toFixed2 score

/-- The note appended when clamping changed an extreme LLM sentiment. -/
def adjNote (s clamped : ℚ) : String :=
  "Adjusted extreme LLM sentiment from " ++ toFixed2 s ++ " to " ++ toFixed2 clamped

/-! ### Keyword sentiment counting (the heuristic fallback)

The heuristic counts matches of `\b(good|great|cool|nice|love|awesome|works)\b`
and `\b(bad|problem|issue|don't|cant|confused|stuck)\b` over the lower-cased
transcript.  Every keyword starts and ends with a word character, so a match
at a position requires the preceding character (if any) to be a non-word
character and the character following the keyword (if any) to be a non-word
character; the global scan is leftmost, non-overlapping, resuming after each
match. -/

/-- JS regex word characters (`\w`): ASCII alphanumerics and `_`. -/
def isWordChar (c : Char) : Bool := c.isAlphanum || c = '_'

/-- End-of-match word boundary: end of string or a non-word character. -/
def endBoundaryOk : List Char → Bool
  | [] => true
  | c :: _ => !isWordChar c

/-- Find the first alternative of `keys` matching at the head of `s` with a
trailing word boundary, returning the remainder of `s` after the match. -/
def findKw (keys : List (List Char)) (s : List Char) : Option (List Char) :=
  keys.findSome? fun k =>
    match dropLead k s with
    | some rest => if endBoundaryOk rest then some rest else none
    | none => none

/-- Fuel-driven global scan counting keyword matches.  `prevW` records
whether the previous character was a word character (so that the leading
`\b` holds exactly when `prevW` is false).  After a match the scan resumes
after the keyword; every keyword ends in a word character, so `prevW`
becomes true there.  The fuel is instantiated with `length + 1`. -/
def countKwAux (keys : List (List Char)) : ℕ → Bool → List Char → ℕ
  | 0, _, _ => 0
  | f + 1, prevW, s =>
    match s with
    | [] => 0
    | c :: cs =>
      if prevW then countKwAux keys f (isWordChar c) cs
      else
        match findKw keys s with
        | some rest => 1 + countKwAux keys f true rest
        | none => countKwAux keys f (isWordChar c) cs

/-- Number of non-overlapping word-bounded matches of any of `keys` in `s`. -/
def countKw (keys : List String) (s : String) : ℕ :=
  countKwAux (keys.map String.data) (s.data.length + 1) false s.data

/-- The positive keyword alternation, in source order. -/
def posKeywords : List String :=
  ["good", "great", "cool", "nice", "love", "awesome", "works"]

/-- The negative keyword alternation, in source order (note: `cant`, not
`can't`, is what the source regex contains). -/
def negKeywords : List String :=
  ["bad", "problem", "issue", "don" ++ apos ++ "t", "cant", "confused", "stuck"]

/-! ### Skill extraction (the heuristic expertise regex)

`/(i\s*(am|'m)\s*(good|experienced|comfortable)\s*(with|at)\s+([a-zA-Z0-9#.+\-_/ ]{2,}))/gi`
applied per line.  The scan is performed on the lower-cased line: the regex
is case-insensitive and the only use of the capture is `m[5].toLowerCase()`,
so scanning lowered text and returning the lowered capture is equivalent.
The alternations are deterministic (distinct first characters) and each
`\s*` is followed by a non-whitespace-initial token, so greedy whitespace
consumption never needs backtracking; only the final `\s+` may give back
whitespace to the `{2,}` capture class (which itself contains the space
character), which `tryCapture` implements. -/

/-- Characters allowed in the captured skill phrase `[a-z0-9#.+\-_/ ]`
(after lower-casing). -/
def isSkillChar (c : Char) : Bool :=
  (('a' ≤ c && c ≤ 'z') || ('0' ≤ c && c ≤ '9')
    || c = '#' || c = '.' || c = '+' || c = '-' || c = '_' || c = '/' || c = ' ')

/-- Backtracking step for `\s+([...]{2,})`: try consuming `k` whitespace
characters (greedily from the maximal run downwards), then take the maximal
run of skill characters; succeed when that run has length at least 2,
returning the capture and the remainder after the whole match. -/
def tryCapture (r : List Char) : ℕ → Option (List Char × List Char)
  | 0 => none
  | k + 1 =>
    let rest := r.drop (k + 1)
    let cap := rest.takeWhile isSkillChar
    if 2 ≤ cap.length then some (cap, rest.drop cap.length)
    else tryCapture r k

/-- Try to match the whole skill pattern at the head of the (lower-cased)
character list; on success return the `m[5]` capture and the remainder of
the list after the match. -/
def matchSkillAt (cs : List Char) : Option (List Char × List Char) :=
  match cs with
  | [] => none
  | c :: r1 =>
    if c = 'i' then
      let r2 := r1.dropWhile isJsWs
      let afterAm := match dropLead ['a', 'm'] r2 with
        | some r => some r
        | none => dropLead ['\x27', 'm'] r2
      match afterAm with
      | none => none
      | some r3 =>
        let r4 := r3.dropWhile isJsWs
        let afterAdj := match dropLead "good".data r4 with
          | some r => some r
          | none => match dropLead "experienced".data r4 with
            | some r => some r
            | none => dropLead "comfortable".data r4
        match afterAdj with
        | none => none
        | some r5 =>
          let r6 := r5.dropWhile isJsWs
          let afterPrep := match dropLead "with".data r6 with
            | some r => some r
            | none => dropLead "at".data r6
          match afterPrep with
          | none => none
          | some r7 =>
            let wsCount := (r7.takeWhile isJsWs).length
            if wsCount = 0 then none else tryCapture r7 wsCount
    else none

/-- Fuel-driven global scan returning every `m[5]` capture (lower-cased), in
order.  On failure at a position the scan advances one character; on success
it resumes after the match (JS `lastIndex`). -/
def skillScanAux : ℕ → List Char → List (List Char)
  | 0, _ => []
  | _, [] => []
  | f + 1, c :: cs =>
    match matchSkillAt (c :: cs) with
    | some (cap, rest) => cap :: skillScanAux f rest
    | none => skillScanAux f cs

/-- All skill captures of a line (the line is lower-cased for the scan). -/
def skillCaptures (line : String) : List String :=
  (skillScanAux (line.data.length + 1) (lowerStr line).data).map String.mk

/-- The stop-word set of the heuristic extraction, verbatim from the source. -/
def stopwords : List String :=
  ["the", "a", "an", "and", "or", "to", "of", "in", "on", "for", "with", "at",
   "by", "from", "about", "as", "into", "like", "through", "after", "over",
   "between", "out", "against", "during", "without", "before", "under",
   "around", "among",
   "what", "which", "who", "whom", "this", "that", "these", "those", "is",
   "are", "was", "were", "be", "been", "being", "have", "has", "had", "do",
   "does", "did", "will", "would", "shall", "should", "can", "could", "may",
   "might", "must",
   "so", "just", "really", "very", "you", "i", "im", "i" ++ apos ++ "m", "we",
   "they", "he", "she", "it", "my", "our", "your", "their", "me", "us", "them"]

/-- One confidence update for a detected mention:
`Math.min(1, (users[u][skill] || 0.5) + 0.2)`. -/
def bumpConf (old : Option ℚ) : ℚ := jsMin 1 (jsRatOr old (1/2) + 1/5)

/-- Update (or insert at the end) the confidence of `skill` in an ordered
skill list, applying `bumpConf` to the previous value. -/
def setSkill : List (String × ℚ) → String → List (String × ℚ)
  | [], skill => [(skill, bumpConf none)]
  | (k, v) :: rest, skill =>
    if k = skill then (k, bumpConf (some v)) :: rest
    else (k, v) :: setSkill rest skill

/-- Update (or insert at the end) a user's skill entry in the table. -/
def setUserSkill : SkillTable → String → String → SkillTable
  | [], user, skill => [(user, setSkill [] skill)]
  | (k, sk) :: rest, user, skill =>
    if k = user then (k, setSkill sk skill) :: rest
    else (k, sk) :: setUserSkill rest user skill

/-- Process one raw capture of one line: sanitize, tokenize, filter
stop-words, and record the resulting skill for `speaker` (the sanitizing
character class equals the capture class after lower-casing, so the
sanitizing replace step is the identity here and only the
whitespace collapse and trim are performed). -/
def recordCapture (speaker : String) (users : SkillTable) (raw : String) :
    SkillTable :=
  let cleaned := jsTrim (squashWs raw)
  if cleaned = "" then users
  else
    let tokens := (splitChar ' ' cleaned).filter
      (fun t => t ≠ "" && !(stopwords.contains t))
    if tokens.length = 0 || 3 < tokens.length then users
    else
      let skill := String.intercalate " " tokens
      if skill.length < 2 || 30 < skill.length then users
      else
        let userKey := if speaker = "" then "Unknown" else speaker
        setUserSkill users userKey skill

/-- The per-line loop of the heuristic expertise extraction, over all lines
of the (trimmed) transcript. -/
def extractSkills (text : String) : SkillTable :=
  (splitNl text).foldl
    (fun users line =>
      let speaker := jsTrim (takeUntilColon line)
      (skillCaptures line).foldl (recordCapture speaker) users)
    []

/-- The skill-to-role lookup table of the heuristic fallback path. -/
def roleMapHeur : List (String × String) :=
  [("react", "Frontend Lead"), ("react native", "Mobile Lead"),
   ("node", "Backend Lead"), ("node.js", "Backend Lead"),
   ("backend", "Backend Lead"), ("database", "Database Design"),
   ("sql", "Database Design"), ("devops", "DevOps"), ("testing", "QA"),
   ("python", "Backend Lead")]

/-- The (larger) skill-to-role lookup table of the LLM backfill path. -/
def roleMapGroq : List (String × String) :=
  roleMapHeur ++
  [("architecture", "Tech Lead / Architect"),
   ("software development", "Engineering Lead"),
   ("best practices", "Quality Champion")]

/-- Association-list lookup (JS object indexing). -/
def alistGet (m : List (String × String)) (k : String) : Option String :=
  (m.find? (fun e => e.1 = k)).map Prod.snd

/-! ### The LLM (Groq) insights step

The Groq response text is sliced from the first brace to the last and
JSON-decoded; the decoded value is used through the declared `Insights`
type.  We model the network/decode outcome as an oracle: `.error` covers a
thrown network error, response text with no parseable JSON object, and any
`JSON.parse` failure.  A decoded object's three required keys are modelled
as optional fields; the route's sanity check throws (falling through to the
heuristic path) when any of them is missing. -/

/-- The JSON object decoded from an LLM insights response, through the
declared `Insights` type: `source` is whatever string the LLM itself
emitted, if any, and the three required keys may be absent. -/
structure LLMRawInsights where
  source : Option String
  sentiment_analysis : Option SentimentData
  expertise_detection : Option SkillTable
  role_suggestions : Option (List RoleSuggestion)
deriving DecidableEq

/-- The environment (oracle) of the meeting-complete route: which hosted
services are configured and what each call would return (`none` models a
thrown error or an unusable response for the respective call). -/
structure InsightsEnv where
  hfKey : Bool
  hfResp : Option (List HFEntry)
  groqConfigured : Bool
  groqInsights : Option LLMRawInsights
  groqSummary : Option String
deriving DecidableEq

/-- Role backfill of the LLM path (lines 179-204 of the route): when the
LLM returned an empty `role_suggestions` array, emit one suggestion per
detected skill found in the fixed lookup table. -/
def backfillRoles (ed : SkillTable) : List RoleSuggestion :=
  ed.foldl
    (fun acc entry =>
      acc ++ entry.2.foldl
        (fun acc2 sk =>
          match alistGet roleMapGroq (lowerStr sk.1) with
          | some role =>
            acc2 ++ [{ role := role, user := entry.1
                       confidence := jsMin 1 (sk.2 + 1/10)
                       reasoning := some ("Inferred from skill " ++ apos ++ sk.1
                         ++ apos ++ ".") }]
          | none => acc2)
        [])
    []

/-- The success continuation of the Groq insights call (lines 155-206):
merge the classifier sentiment if available, clamp the final score, and
backfill roles when the LLM returned none. -/
def mergeGroq (hfSent : Option (ℚ × String)) (llmSource : Option String)
    (sa : SentimentData) (ed : SkillTable) (rs : List RoleSuggestion) :
    Insights :=
  let saSrc : SentimentData × Option String :=
    match hfSent with
    | some (sc, lb) =>
      ({ overall_score := clamp0595 sc
         notes := some ((sa.notes.getD []) ++ [hfNote lb sc]) },
       some (if jsTruthyStr llmSource then "hybrid" else "hf-sst2"))
    | none => (sa, some "groq")
  let s := saSrc.1.overall_score
  let clamped := clamp0595 s
  let sa2 : SentimentData :=
    if clamped = s then saSrc.1
    else { overall_score := clamped
           notes := some ((saSrc.1.notes.getD []) ++ [adjNote s clamped]) }
  let rs2 := if rs = [] then backfillRoles ed else rs
  { source := saSrc.2
    sentiment_analysis := sa2
    expertise_detection := ed
    role_suggestions := rs2 }

/-- The heuristic sentiment note. -/
def heurNote (score : ℚ) : String :=
  "Heuristic sentiment score: " ++ toFixed2 score

/-- The heuristic keyword-ratio sentiment score of a (trimmed, non-empty)
transcript: `Math.max(0, Math.min(1, (pos + 1) / (pos + neg + 2)))`. -/
def heurScore (text : String) : ℚ :=
  let lower := lowerStr text
  let pos := countKw posKeywords lower
  let neg := countKw negKeywords lower
  clamp01 ((pos + 1 : ℚ) / (pos + neg + 2))

/-- Rudimentary role suggestions of the heuristic path (no `reasoning`). -/
def heurRoles (users : SkillTable) : List RoleSuggestion :=
  users.foldl
    (fun acc entry =>
      acc ++ entry.2.foldl
        (fun acc2 sk =>
          match alistGet roleMapHeur sk.1 with
          | some role =>
            acc2 ++ [{ role := role, user := entry.1
                       confidence := jsMin 1 (sk.2 + 1/10), reasoning := none }]
          | none => acc2)
        [])
    []

/-- The heuristic fallback block (lines 212-269): overwrite the sentiment
score and notes of the object built so far, mark the source, and fill
expertise/roles from the regex extraction. -/
def heuristicInsights (b : Insights) (text : String) : Insights :=
  let score := heurScore text
  let users := extractSkills text
  { b with
    sentiment_analysis := { overall_score := score, notes := some [heurNote score] }
    source := some "heuristic"
    expertise_detection := users
    role_suggestions := b.role_suggestions ++ heurRoles users }

/-- The classifier sentiment available to `generateInsights`: the HF call is
attempted only when the API key is configured. -/
def hfSentOf (env : InsightsEnv) : Option (ℚ × String) :=
  if env.hfKey then computeHFSentiment env.hfResp else none

/-- The `base` object after the HF step (lines 108-120): on classifier
success the clamped score, the HF note and the `hf-sst2` source are
recorded. -/
def hfBase (env : InsightsEnv) : Insights :=
  match hfSentOf env with
  | some (sc, lb) =>
    { baseInsights with
      sentiment_analysis :=
        { overall_score := clamp0595 sc, notes := some [hfNote lb sc] }
      source := some "hf-sst2" }
  | none => baseInsights

/-- Outbound calls performed by the HF step. -/
def hfCallsOf (env : InsightsEnv) : ℕ := if env.hfKey then 1 else 0

/-- The full `generateInsights` control flow.  Returns the insights object
together with the number of outbound network calls performed (the HF fetch
when the key is configured, plus the Groq chat call when configured). -/
def generateInsights (env : InsightsEnv) (conversation : String)
    (_participants : List String) : Insights × ℕ :=
  let text := jsTrim conversation
  if text = "" then (baseInsights, 0)
  else
    if env.groqConfigured then
      match env.groqInsights with
      | some raw =>
        match raw.sentiment_analysis, raw.expertise_detection,
              raw.role_suggestions with
        | some sa, some ed, some rs =>
          (mergeGroq (hfSentOf env) raw.source sa ed rs, hfCallsOf env + 1)
        | _, _, _ => (heuristicInsights (hfBase env) text, hfCallsOf env + 1)
      | none => (heuristicInsights (hfBase env) text, hfCallsOf env + 1)
    else (heuristicInsights (hfBase env) text, hfCallsOf env)

/-- The heuristic fallback summary: last 12 lines, `User:` tags stripped,
last 5 non-empty joined by `". "`. -/
def fallbackSummary (trimmed : String) : String :=
  let lines := (splitNl trimmed).drop ((splitNl trimmed).length - 12)
  let stripped := lines.map fun l =>
    match dropLead "User:".data l.data with
    | some rest => String.mk (rest.dropWhile isJsWs)
    | none => l
  let kept := stripped.filter (· ≠ "")
  let last5 := kept.drop (kept.length - 5)
  let joined := String.intercalate ". " last5
  if joined = "" then "Summary unavailable." else "Key points: " ++ joined

/-- `generateSummary`, with its outbound-call count. -/
def generateSummary (env : InsightsEnv) (conversation : String) : String × ℕ :=
  let trimmed := jsTrim conversation
  if trimmed = "" then ("No conversation captured.", 0)
  else if env.groqConfigured then
    match env.groqSummary with
    | some content => (jsTrim content, 1)
    | none => (fallbackSummary trimmed, 1)
  else (fallbackSummary trimmed, 0)

/-! ### The meeting-complete `POST` handler (`part_002`, lines 272-313) -/

/-- The environment of one meeting-complete request.  `body` is the outcome
of `req.json()` (`none` = the body was not JSON, which throws into the
top-level catch); the two `dbUpdate` flags model whether the respective
`db.update` calls throw.  `dbMeetings` lists the meeting ids present in the
database; the handler never reads it (it performs no select, and an update
whose `where` matches no row succeeds affecting zero rows), which is exactly
what claim C7 is about. -/
structure CompleteEnv where
  insightsEnv : InsightsEnv
  body : Option (Option String × Option String)
  dbMeetings : List String
  dbUpdate1Ok : Bool
  dbUpdate2Ok : Bool
deriving DecidableEq

/-- The response of the meeting-complete route. -/
inductive CompleteResp where
  | ok (summary : String) (insights : Insights) (source : String)
  | badRequest
  | serverError
deriving DecidableEq

/-- HTTP status of a meeting-complete response. -/
def CompleteResp.status : CompleteResp → ℕ
  | .ok _ _ _ => 200
  | .badRequest => 400
  | .serverError => 500

/-- The participant list derived from the conversation: leading `Speaker:`
tokens of each line, trimmed, non-empty, first occurrences only. -/
def participantsOf (convo : String) : List String :=
  dedupFirst (((splitNl convo).map fun l => jsTrim (takeUntilColon l)).filter
    (· ≠ ""))

/-- The meeting-complete `POST` handler.  Every step of the insights/summary
pipeline is a total function of the environment, so the only responses are
200 (success), 400 (falsy `meetingId`) and 500 (body parse or a database
update throwing); there is no meeting lookup and no 404. -/
def meetingCompletePOST (env : CompleteEnv) : CompleteResp :=
  match env.body with
  | none => .serverError
  | some (mid, conv) =>
    if !jsTruthyStr mid then .badRequest
    else if !env.dbUpdate1Ok then .serverError
    else
      let convo := jsStrOr conv ""
      let participants := participantsOf convo
      let summaryText := (generateSummary env.insightsEnv convo).1
      let insights := (generateInsights env.insightsEnv convo participants).1
      if !env.dbUpdate2Ok then .serverError
      else .ok summaryText insights (insights.source.getD "unknown")

/-! ## Data model of the project-plan route (`src/app/api/subtasks/route.ts`) -/

/-- A subtask of a generated plan. -/
structure PlanSubtask where
  title : String
  description : String
deriving DecidableEq

/-- A task of a generated plan. -/
structure PlanTask where
  title : String
  description : String
  priority : String
  estimatedHours : Option ℚ
  suggestedAssignee : Option String
  subtasks : List PlanSubtask
deriving DecidableEq

/-- A phase of a generated plan. -/
structure PlanPhase where
  name : String
  order : ℕ
  color : String
  tasks : List PlanTask
deriving DecidableEq

/-- A suggested assignee of a generated plan. -/
structure PlanAssignee where
  userName : String
  role : String
  confidence : ℚ
  reasoning : String
  currentWorkload : ℚ
  maxWorkload : ℚ
  emotionalState : String
  expertise : List String
deriving DecidableEq

/-- The `workloadAnalysis` object of a generated plan. -/
structure PlanWorkload where
  totalTasks : ℚ
  estimatedTotalHours : ℚ
  workloadDistribution : List (String × ℚ)
  recommendations : List String
deriving DecidableEq

/-- A complete project plan document. -/
structure ProjectPlan where
  phases : List PlanPhase
  suggestedAssignees : List PlanAssignee
  workloadAnalysis : PlanWorkload
deriving DecidableEq

/-- The canned `Frontend Development` phase of `createFallbackPlan`. -/
def frontendPhase : PlanPhase :=
  { name := "Frontend Development", order := 1, color := "#3B82F6"
    tasks := [
      { title := "Build responsive UI/UX foundation"
        description := "Create solid UI/UX foundation with focus on responsiveness and accessibility as discussed in meeting"
        priority := "high", estimatedHours := some 16
        suggestedAssignee := some "Frontend Developer"
        subtasks := [
          { title := "Design system setup"
            description := "Establish design tokens and component library" },
          { title := "Responsive layout implementation"
            description := "Implement mobile-first responsive design" },
          { title := "Accessibility features"
            description := "Add ARIA labels and keyboard navigation support" },
          { title := "State management setup"
            description := "Implement state management library as recommended" }] }] }

/-- The canned `Backend Development` phase of `createFallbackPlan`. -/
def backendPhase : PlanPhase :=
  { name := "Backend Development", order := 2, color := "#10B981"
    tasks := [
      { title := "Implement robust backend architecture"
        description := "Develop scalable backend system with authentication and authorization as discussed"
        priority := "high", estimatedHours := some 20
        suggestedAssignee := some "Backend Developer"
        subtasks := [
          { title := "Framework selection and setup"
            description := "Choose and configure suitable backend framework" },
          { title := "Database design and implementation"
            description := "Design and implement robust database schema" },
          { title := "API development"
            description := "Build RESTful API endpoints with proper documentation" },
          { title := "Authentication system"
            description := "Implement secure user authentication and authorization" },
          { title := "Scalability planning"
            description := "Design architecture for future growth and scaling" }] }] }

/-- The canned `Implementation & Launch` phase of `createFallbackPlan`. -/
def implementationPhase : PlanPhase :=
  { name := "Implementation & Launch", order := 3, color := "#F59E0B"
    tasks := [
      { title := "Execute project implementation plan"
        description := "Coordinate project execution and prepare for successful launch"
        priority := "medium", estimatedHours := some 12
        suggestedAssignee := some "Project Manager"
        subtasks := [
          { title := "Phase coordination"
            description := "Coordinate between frontend and backend development teams" },
          { title := "Testing and QA"
            description := "Conduct thorough testing of all features and functionality" },
          { title := "Deployment preparation"
            description := "Prepare production environment and deployment pipeline" },
          { title := "Quality assurance"
            description := "Ensure high-quality product delivery as emphasized in meeting" }] }] }

/-- The generic phase emitted when no keyword family matched. -/
def genericPhase : PlanPhase :=
  { name := "Project Planning & Setup", order := 1, color := "#8B5CF6"
    tasks := [
      { title := "Analyze meeting outcomes and create action plan"
        description := "Review meeting transcript to extract key decisions and create detailed project roadmap"
        priority := "high", estimatedHours := some 6
        suggestedAssignee := some "Project Lead"
        subtasks := [
          { title := "Extract key decisions"
            description := "Document all decisions and recommendations made during meeting" },
          { title := "Create detailed task breakdown"
            description := "Break down project into specific, actionable tasks" },
          { title := "Assign team responsibilities"
            description := "Distribute tasks among team members based on expertise" },
          { title := "Set project milestones"
            description := "Establish clear milestones and delivery timelines" }] }] }

/-- The fixed suggested assignee of the fallback plan. -/
def fallbackAssignee : PlanAssignee :=
  { userName := "Development Team", role := "Full-Stack Development Team"
    confidence := 9/10
    reasoning := "Based on meeting discussion about frontend, backend, and implementation phases"
    currentWorkload := 20, maxWorkload := 40, emotionalState := "positive"
    expertise := ["frontend development", "backend development",
                  "project management", "UI/UX design"] }

/-- Total task count of a phase list, as the source's
`reduce((sum, phase) => sum + phase.tasks.length, 0)`. -/
def planTaskCount (phases : List PlanPhase) : ℕ :=
  phases.foldl (fun s ph => s + ph.tasks.length) 0

/-- Total estimated hours, as the source's nested reduce over
`task.estimatedHours || 0`. -/
def planTotalHours (phases : List PlanPhase) : ℚ :=
  phases.foldl
    (fun s ph => s + ph.tasks.foldl (fun ts t => ts + jsRatOr t.estimatedHours 0) 0)
    0

/-- `createFallbackPlan` (route lines 358-490): scan the lower-cased
transcript for the three keyword families and emit the matched canned
phases in fixed order, or the generic phase when none matched.
`meetingName` is only logged by the source and does not affect the plan. -/
def createFallbackPlan (transcript _meetingName : String) : ProjectPlan :=
  let lowerT := lowerStr transcript
  let det1 :=
    if containsSub lowerT "frontend" || containsSub lowerT "ui"
        || containsSub lowerT "ux" || containsSub lowerT "user interface"
    then [frontendPhase] else []
  let det2 :=
    if containsSub lowerT "backend" || containsSub lowerT "api"
        || containsSub lowerT "database" || containsSub lowerT "server"
    then [backendPhase] else []
  let det3 :=
    if containsSub lowerT "implementation" || containsSub lowerT "deployment"
        || containsSub lowerT "launch" || containsSub lowerT "delivery"
    then [implementationPhase] else []
  let detected0 := det1 ++ det2 ++ det3
  let detected := if detected0 = [] then [genericPhase] else detected0
  { phases := detected
    suggestedAssignees := [fallbackAssignee]
    workloadAnalysis :=
      { totalTasks := (planTaskCount detected : ℚ)
        estimatedTotalHours := planTotalHours detected
        workloadDistribution := [("Development Team", planTotalHours detected)]
        recommendations := [
          "Start with frontend foundation as it" ++ apos ++ "s the user-facing component",
          "Coordinate between frontend and backend teams for seamless integration",
          "Focus on delivering core features first to ensure quality",
          "Prioritize critical features as emphasized in the meeting discussion"] } }

/-! ### The project-plan `POST` handler (route lines 147-355) -/

/-- A phase object as decoded from the LLM's JSON, before the route
backfills defaults: `name`/`order`/`color` may be absent (or falsy) and
`tasks` may fail the `Array.isArray` check (`none`). -/
structure RawPhase where
  name : Option String
  order : Option ℕ
  color : Option String
  tasks : Option (List PlanTask)
deriving DecidableEq

/-- The plan object decoded from `JSON.parse(aiData.response)`.  The route
validates only that `phases` is present and an array. -/
structure RawPlan where
  phases : Option (List RawPhase)
  suggestedAssignees : List PlanAssignee
  workloadAnalysis : PlanWorkload
deriving DecidableEq

/-- The LLM-proxy response as seen by the route: its HTTP `ok` flag, then
the outcome of `aiResponse.json()` (`none` = throws), then the outcome of
`JSON.parse(aiData.response)` (`none` = the response text is not JSON). -/
structure AiResp where
  ok : Bool
  json : Option (Option RawPlan)
deriving DecidableEq

/-- The environment of one plan-generation request.  `tfetchOk` is the HTTP
`ok` flag of the transcript fetch — the source never reads it, which is
what claim C6 turns on; `tfetchJson` is the outcome of
`transcriptResponse.json()` (`none` = throws; the inner option is the
`transcript` field).  `aiFetch` is `none` when the `fetch` itself rejects. -/
structure PlanEnv where
  reqBody : Option (Option String)
  meeting : Option String
  tfetchOk : Bool
  tfetchJson : Option (Option String)
  aiFetch : Option AiResp
  dbInsertsOk : Bool
deriving DecidableEq

/-- The response of the plan-generation route. -/
inductive PlanResp where
  | ok (plan : ProjectPlan)
  | badRequest
  | notFound
  | failed
deriving DecidableEq

/-- HTTP status of a plan-generation response. -/
def PlanResp.status : PlanResp → ℕ
  | .ok _ => 200
  | .badRequest => 400
  | .notFound => 404
  | .failed => 500

/-- The plan carried by a successful response. -/
def PlanResp.planOf : PlanResp → Option ProjectPlan
  | .ok p => some p
  | _ => none

/-- Default backfill of parsed phases (route lines 268-274): JS `||`
defaults for `name`/`order`/`color` and `[]` for a non-array `tasks`. -/
def backfillPhases (raw : List RawPhase) : List PlanPhase :=
  raw.enum.map fun e =>
    { name := jsStrOr e.2.name ("Phase " ++ toString (e.1 + 1))
      order := jsNatOr e.2.order (e.1 + 1)
      color := jsStrOr e.2.color "#3B82F6"
      tasks := e.2.tasks.getD [] }

/-- The plan-generation `POST` handler.  A thrown body parse, a rejected or
non-JSON transcript fetch, a rejected/non-2xx/non-JSON LLM-proxy call, or a
throwing database insert all land in the top-level catch (500); a parse or
validation failure of the LLM response text is caught by the inner
try/catch and downgraded to `createFallbackPlan`.  The transcript fetch's
HTTP status (`tfetchOk`) is never consulted. -/
def subtasksPOST (env : PlanEnv) : PlanResp :=
  match env.reqBody with
  | none => .failed
  | some mid =>
    if !jsTruthyStr mid then .badRequest
    else
      match env.meeting with
      | none => .notFound
      | some meetingName =>
        match env.tfetchJson with
        | none => .failed
        | some tr =>
          let transcript := jsStrOr tr ""
          match env.aiFetch with
          | none => .failed
          | some resp =>
            if !resp.ok then .failed
            else
              match resp.json with
              | none => .failed
              | some parseOutcome =>
                let plan :=
                  match parseOutcome with
                  | none => createFallbackPlan transcript meetingName
                  | some raw =>
                    match raw.phases with
                    | none => createFallbackPlan transcript meetingName
                    | some rawPhases =>
                      { phases := backfillPhases rawPhases
                        suggestedAssignees := raw.suggestedAssignees
                        workloadAnalysis := raw.workloadAnalysis }
                if !env.dbInsertsOk then .failed else .ok plan

/-! ### JSON serialization of the persisted plan blob

The route persists `JSON.stringify(projectPlanData.phases)`; reading the
plan back goes through `JSON.parse`.  We model the JSON document produced
by `stringify` as an explicit tree and the re-parse of the phases blob as a
shape reader over that tree (`stringify`/`parse` themselves are the JS
runtime's, consumed as an external collaborator per the spec's §6). -/

/-- JSON document trees. -/
inductive JVal where
  | jnull
  | jbool (b : Bool)
  | jnum (q : ℚ)
  | jstr (s : String)
  | jarr (xs : List JVal)
  | jobj (fs : List (String × JVal))

/-- Encode a subtask. -/
def encodeSubtask (s : PlanSubtask) : JVal :=
  .jobj [("title", .jstr s.title), ("description", .jstr s.description)]

/-- Encode a task (`undefined` optional fields are omitted by
`JSON.stringify`, so absent fields produce no entry). -/
def encodeTask (t : PlanTask) : JVal :=
  .jobj ([("title", .jstr t.title), ("description", .jstr t.description),
          ("priority", .jstr t.priority)]
    ++ (match t.estimatedHours with
        | some h => [("estimatedHours", JVal.jnum h)]
        | none => [])
    ++ (match t.suggestedAssignee with
        | some a => [("suggestedAssignee", JVal.jstr a)]
        | none => [])
    ++ [("subtasks", .jarr (t.subtasks.map encodeSubtask))])

/-- Encode a phase. -/
def encodePhase (p : PlanPhase) : JVal :=
  .jobj [("name", .jstr p.name), ("order", .jnum p.order),
         ("color", .jstr p.color),
         ("tasks", .jarr (p.tasks.map encodeTask))]

/-- The persisted `phases` JSON blob of a plan. -/
def encodePhases (phases : List PlanPhase) : JVal :=
  .jarr (phases.map encodePhase)

/-- Array contents of a JSON value, when it is an array. -/
def JVal.asArr : JVal → Option (List JVal)
  | .jarr xs => some xs
  | _ => none

/-- Object field lookup. -/
def JVal.getField : JVal → String → Option JVal
  | .jobj fs, k => (fs.find? (fun f => f.1 = k)).map Prod.snd
  | _, _ => none

/-- The task count a consumer reads from one re-parsed phase object. -/
def phaseShape (j : JVal) : Option ℕ :=
  (j.getField "tasks").bind fun t => (t.asArr).map List.length

/-- Task counts of a list of re-parsed phase objects (`none` as soon as one
element lacks a `tasks` array). -/
def phaseShapes : List JVal → Option (List ℕ)
  | [] => some []
  | j :: js =>
    match phaseShape j, phaseShapes js with
    | some n, some ns => some (n :: ns)
    | _, _ => none

/-- The per-phase task counts a consumer reads from the re-parsed blob. -/
def phasesShape (j : JVal) : Option (List ℕ) :=
  j.asArr.bind phaseShapes

/-! ## The speech-output pipeline (`call-active.tsx`)

`speakResponse` splits the response into chunks and drives `speakChunkAt`,
which before playing each chunk checks the cancellation flags
(`isShuttingDownRef`, `ttsStopRequestedRef`, `isAIMuted`), plays the chunk,
and from the utterance's `onend`/`onerror` callback re-checks the flags
before recursing on the next index; at the end of the queue it resumes the
recognizer only if it was paused for TTS, the mic is enabled, AI listening
is enabled, and no stop/shutdown was requested.  The run is single-threaded
and event-driven: flag writes can only happen between these checkpoints, so
we model the flags observed at the `t`-th checkpoint as an arbitrary
function of `t`.  (The source checks the same flags twice back-to-back at
entry, lines 771 and 799, with no suspension in between; both reads see the
same values and are modelled as one checkpoint.) -/

/-- The cancellation-relevant flags of the call component. -/
structure TtsFlags where
  stopRequested : Bool
  shuttingDown : Bool
  aiMuted : Bool
deriving DecidableEq

/-- The abort condition checked at every continuation point of
`speakChunkAt`: `isShuttingDownRef.current || ttsStopRequestedRef.current
|| isAIMuted`. -/
def ttsCancelled (f : TtsFlags) : Bool :=
  f.shuttingDown || f.stopRequested || f.aiMuted

/-- Observable outcome of one `speakChunkAt 0` run: the chunks that began
playing (in order), the final value of the `isAgentSpeaking` flag, and
whether the recognizer was auto-resumed at the end of the queue. -/
structure TtsRun where
  played : List String
  speaking : Bool
  resumedRecognition : Bool
deriving DecidableEq

/-- The `speakChunkAt` recursion.  `env t` is the flag state observed at
checkpoint `t`; `canResume` abbreviates the non-flag conjuncts of the
resume condition (`recognitionPausedByTTSRef && call.microphone.enabled &&
!isAIListeningDisabled`).  Entry checkpoint at time `t`; the chunk's
`onend`/`onerror` checkpoint at `t + 1`; the next entry at `t + 2`. -/
def speakSeq (env : ℕ → TtsFlags) (canResume : Bool) :
    List String → ℕ → TtsRun
  | [], t =>
    if ttsCancelled (env t) then
      { played := [], speaking := false, resumedRecognition := false }
    else
      { played := [], speaking := false
        resumedRecognition :=
          canResume && !(env t).shuttingDown && !(env t).stopRequested }
  | c :: rest, t =>
    if ttsCancelled (env t) then
      { played := [], speaking := false, resumedRecognition := false }
    else
      let cont :=
        if ttsCancelled (env (t + 1)) then
          ({ played := [], speaking := false, resumedRecognition := false } : TtsRun)
        else speakSeq env canResume rest (t + 2)
      { played := c :: cont.played, speaking := cont.speaking
        resumedRecognition := cont.resumedRecognition }

/-- `handleToggleAIMute` (lines 938-964), restricted to its effect on the
flags: muting (the AI was not muted) requests a TTS stop and force-stops
playback; unmuting does nothing special. -/
def handleToggleAIMute (f : TtsFlags) : TtsFlags :=
  if f.aiMuted then { f with aiMuted := false }
  else { f with aiMuted := true, stopRequested := true }

/-! ## Named concrete inputs used by the claim theorems -/

/-- `true` exactly when the Groq insights step is skipped or falls through
to the heuristic path: the client is unconfigured, the call/parse threw, or
the decoded object fails the three-key sanity check. -/
def groqStepFails (env : InsightsEnv) : Bool :=
  !env.groqConfigured ||
    match env.groqInsights with
    | none => true
    | some raw =>
      raw.sentiment_analysis.isNone || raw.expertise_detection.isNone
        || raw.role_suggestions.isNone

/-- Confidence after `k` detected mentions of the same skill by the same
speaker (each mention applies `bumpConf`, exactly as `setSkill` does):
`none` before the first mention. -/
def bumpIter : ℕ → Option ℚ
  | 0 => none
  | k + 1 => some (bumpConf (bumpIter k))

/-- No hosted services configured (heuristic-only environment). -/
def envNoHosted : InsightsEnv :=
  { hfKey := false, hfResp := none, groqConfigured := false
    groqInsights := none, groqSummary := none }

/-- A transcript consisting of nineteen negative keywords. -/
def c1Text : String :=
  "bad bad bad bad bad bad bad bad bad bad bad bad bad bad bad bad bad bad bad"

/-- An LLM insights response containing the three required keys but - as
LLM responses to this prompt do - no `source` field of its own. -/
def c2Raw : LLMRawInsights :=
  { source := none
    sentiment_analysis := some { overall_score := 1/2, notes := none }
    expertise_detection := some []
    role_suggestions := some [] }

/-- Classifier succeeds (POSITIVE at 0.9) and the LLM call also succeeds
with response `c2Raw`. -/
def c2Env : InsightsEnv :=
  { hfKey := true
    hfResp := some [{ label := "NEGATIVE", score := 1/10 },
                    { label := "POSITIVE", score := 9/10 }]
    groqConfigured := true
    groqInsights := some c2Raw
    groqSummary := some "sum" }

/-- A plan-request environment whose LLM response parses to a plan whose
`workloadAnalysis.totalTasks` (5) disagrees with the actual task count (1). -/
def c5Env : PlanEnv :=
  { reqBody := some (some "m1")
    meeting := some "Sprint planning"
    tfetchOk := true
    tfetchJson := some (some "hello team")
    aiFetch := some
      { ok := true
        json := some (some
          { phases := some [
              { name := some "Phase A", order := some 1
                color := some "#3B82F6"
                tasks := some [
                  { title := "One task", description := "d"
                    priority := "high", estimatedHours := some 8
                    suggestedAssignee := none, subtasks := [] }] }]
            suggestedAssignees := []
            workloadAnalysis :=
              { totalTasks := 5, estimatedTotalHours := 40
                workloadDistribution := [], recommendations := [] } }) }
    dbInsertsOk := true }

/-- A plan-request environment whose transcript fetch came back non-2xx
(`tfetchOk = false`) with a JSON error body, and whose LLM response text
fails to parse (so the fallback planner runs). -/
def c6Env : PlanEnv :=
  { reqBody := some (some "m1")
    meeting := some "Kickoff"
    tfetchOk := false
    tfetchJson := some none
    aiFetch := some { ok := true, json := some none }
    dbInsertsOk := true }

/-- A meeting-complete request for a meeting id absent from the database,
with no hosted services and a well-formed body. -/
def c7Env : CompleteEnv :=
  { insightsEnv := envNoHosted
    body := some (some "m1", some "")
    dbMeetings := []
    dbUpdate1Ok := true
    dbUpdate2Ok := true }

/-- The transcript of claim C8. -/
def c8Text : String := "Alice: I" ++ apos ++ "m good at React"

/-- A transcript containing `backend` and `user interface` but none of the
keywords `frontend`, `ui`, `ux` or the implementation family. -/
def c4Text : String := "backend user interface"

/-- Classifier configured and succeeding (POSITIVE at 0.9), LLM not
configured: the heuristic fallback will overwrite the classifier data. -/
def c10Env : InsightsEnv :=
  { hfKey := true
    hfResp := some [{ label := "POSITIVE", score := 9/10 }]
    groqConfigured := false
    groqInsights := none
    groqSummary := none }

/-- Flags with a pending stop request. -/
def stopFlags : TtsFlags :=
  { stopRequested := true, shuttingDown := false, aiMuted := false }

/-! ## Helper lemmas -/

theorem jsMin_eq (a b : ℚ) : jsMin a b = min a b := by
  rw [jsMin, min_def]

theorem jsMax_eq (a b : ℚ) : jsMax a b = max a b := by
  rw [jsMax, max_def]

theorem clamp0595_mem (q : ℚ) : 1/20 ≤ clamp0595 q ∧ clamp0595 q ≤ 19/20 := by
  unfold clamp0595
  rw [jsMin_eq, jsMax_eq]
  constructor
  · rcases le_total (19/20 : ℚ) (max (1/20) q) with h | h
    · rw [min_eq_left h]; norm_num
    · rw [min_eq_right h]; exact le_max_left _ _
  · exact min_le_left _ _

theorem clamp0595_idem (q : ℚ) : clamp0595 (clamp0595 q) = clamp0595 q := by
  have h := clamp0595_mem q
  conv_lhs => rw [clamp0595]
  rw [jsMin_eq, jsMax_eq, max_eq_right h.1, min_eq_right h.2]

theorem clamp01_mem (q : ℚ) : 0 ≤ clamp01 q ∧ clamp01 q ≤ 1 := by
  unfold clamp01
  rw [jsMin_eq, jsMax_eq]
  refine ⟨le_max_left _ _, ?_⟩
  rcases le_total (min 1 q) (0 : ℚ) with h | h
  · rw [max_eq_left h]; norm_num
  · rw [max_eq_right h]; exact min_le_left _ _

theorem ratio_mem (p n : ℕ) :
    0 ≤ ((p : ℚ) + 1) / ((p : ℚ) + n + 2) ∧
    ((p : ℚ) + 1) / ((p : ℚ) + n + 2) ≤ 1 := by
  have hd : (0 : ℚ) < (p : ℚ) + n + 2 := by positivity
  constructor
  · positivity
  · rw [div_le_one hd]
    have : (0 : ℚ) ≤ n := by positivity
    linarith

theorem heurScore_eq (t : String) :
    heurScore t =
      ((countKw posKeywords (lowerStr t) : ℚ) + 1) /
        ((countKw posKeywords (lowerStr t) : ℚ) + countKw negKeywords (lowerStr t) + 2) := by
  have h := ratio_mem (countKw posKeywords (lowerStr t)) (countKw negKeywords (lowerStr t))
  simp only [heurScore, clamp01]
  rw [jsMin_eq, jsMax_eq, min_eq_right h.2, max_eq_right h.1]

theorem heurScore_mem (t : String) : 0 ≤ heurScore t ∧ heurScore t ≤ 1 := by
  unfold heurScore; exact clamp01_mem _

theorem mergeGroq_score_mem (hf : Option (ℚ × String)) (src : Option String)
    (sa : SentimentData) (ed : SkillTable) (rs : List RoleSuggestion) :
    1/20 ≤ (mergeGroq hf src sa ed rs).sentiment_analysis.overall_score ∧
    (mergeGroq hf src sa ed rs).sentiment_analysis.overall_score ≤ 19/20 := by
  rcases hf with _ | ⟨sc, lb⟩ <;>
    (simp only [mergeGroq]
     split
     · next h => rw [← h]; exact clamp0595_mem _
     · exact clamp0595_mem _)

theorem mergeGroq_source (hf : Option (ℚ × String)) (src : Option String)
    (sa : SentimentData) (ed : SkillTable) (rs : List RoleSuggestion) :
    (mergeGroq hf src sa ed rs).source = some "groq" ∨
    (mergeGroq hf src sa ed rs).source = some "hybrid" ∨
    (mergeGroq hf src sa ed rs).source = some "hf-sst2" := by
  rcases hf with _ | ⟨sc, lb⟩
  · left; simp only [mergeGroq]
  · right
    by_cases h : jsTruthyStr src = true
    · left; simp only [mergeGroq, h, if_true]
    · right
      simp only [mergeGroq, h]
      simp

theorem heuristicInsights_source (b : Insights) (t : String) :
    (heuristicInsights b t).source = some "heuristic" := rfl

theorem heuristicInsights_score (b : Insights) (t : String) :
    (heuristicInsights b t).sentiment_analysis.overall_score = heurScore t := rfl

theorem heuristicInsights_notes (b : Insights) (t : String) :
    (heuristicInsights b t).sentiment_analysis.notes
      = some [heurNote (heurScore t)] := rfl

theorem generateInsights_empty (env : InsightsEnv) (c : String) (ps : List String)
    (h : jsTrim c = "") : generateInsights env c ps = (baseInsights, 0) := by
  simp [generateInsights, h]

theorem generateInsights_groqFails (env : InsightsEnv) (c : String) (ps : List String)
    (hc : jsTrim c ≠ "") (hg : groqStepFails env = true) :
    (generateInsights env c ps).1 = heuristicInsights (hfBase env) (jsTrim c) := by
  rcases hgc : env.groqConfigured with _ | _
  · simp [generateInsights, hc, hgc]
  · unfold groqStepFails at hg
    rw [hgc] at hg
    rcases hgi : env.groqInsights with _ | raw
    · simp [generateInsights, hc, hgc, hgi]
    · rw [hgi] at hg
      obtain ⟨rsrc, rsa, red, rrs⟩ := raw
      rcases rsa with _ | sa
      · simp [generateInsights, hc, hgc, hgi]
      rcases red with _ | ed
      · simp [generateInsights, hc, hgc, hgi]
      rcases rrs with _ | rs
      · simp [generateInsights, hc, hgc, hgi]
      exfalso
      simp at hg

theorem generateInsights_groqOk (env : InsightsEnv) (c : String) (ps : List String)
    (raw : LLMRawInsights) (sa : SentimentData) (ed : SkillTable)
    (rs : List RoleSuggestion)
    (hc : jsTrim c ≠ "") (hgc : env.groqConfigured = true)
    (hgi : env.groqInsights = some raw) (hsa : raw.sentiment_analysis = some sa)
    (hed : raw.expertise_detection = some ed)
    (hrs : raw.role_suggestions = some rs) :
    (generateInsights env c ps).1 = mergeGroq (hfSentOf env) raw.source sa ed rs := by
  simp [generateInsights, hc, hgc, hgi, hsa, hed, hrs]

theorem generateInsights_shape (env : InsightsEnv) (c : String) (ps : List String) :
    (generateInsights env c ps).1 = baseInsights ∨
    (∃ b, (generateInsights env c ps).1 = heuristicInsights b (jsTrim c)) ∨
    (∃ hf src sa ed rs, (generateInsights env c ps).1 = mergeGroq hf src sa ed rs) := by
  by_cases hc : jsTrim c = ""
  · exact Or.inl (by rw [generateInsights_empty env c ps hc])
  · by_cases hg : groqStepFails env = true
    · exact Or.inr (Or.inl ⟨hfBase env, generateInsights_groqFails env c ps hc hg⟩)
    · unfold groqStepFails at hg
      rcases hgc : env.groqConfigured with _ | _
      · rw [hgc] at hg; simp at hg
      · rw [hgc] at hg
        rcases hgi : env.groqInsights with _ | raw
        · rw [hgi] at hg; simp at hg
        · rw [hgi] at hg
          obtain ⟨rsrc, rsa, red, rrs⟩ := raw
          rcases rsa with _ | sa
          · exfalso; simp at hg
          rcases red with _ | ed
          · exfalso; simp at hg
          rcases rrs with _ | rs
          · exfalso; simp at hg
          refine Or.inr (Or.inr ⟨hfSentOf env, rsrc, sa, ed, rs, ?_⟩)
          simp [generateInsights, hc, hgc, hgi]

/-! ## Claim C1 -/

/-- C1 counterexample: on a transcript of nineteen negative keywords, with
no hosted services, `generateInsights` surfaces the heuristic score
`(0 + 1) / (0 + 19 + 2) = 1/21 < 0.05`, outside the claimed `[0.05, 0.95]`. -/
theorem c1_counterexample :
    (generateInsights envNoHosted c1Text []).1.source = some "heuristic" ∧
    (generateInsights envNoHosted c1Text []).1.sentiment_analysis.overall_score = 1/21 ∧
    ¬(1/20 ≤ (generateInsights envNoHosted c1Text []).1.sentiment_analysis.overall_score) := by
  have hc : jsTrim c1Text ≠ "" := by decide
  have hg : groqStepFails envNoHosted = true := by decide
  have h := generateInsights_groqFails envNoHosted c1Text [] hc hg
  have hpos : countKw posKeywords (lowerStr (jsTrim c1Text)) = 0 := by decide
  have hneg : countKw negKeywords (lowerStr (jsTrim c1Text)) = 19 := by decide
  have hscore : (generateInsights envNoHosted c1Text []).1.sentiment_analysis.overall_score
      = 1/21 := by
    rw [h, heuristicInsights_score, heurScore_eq, hpos, hneg]
    norm_num
  refine ⟨?_, hscore, ?_⟩
  · rw [h, heuristicInsights_source]
  · rw [hscore]; norm_num

/-- C1 (amended): every sentiment score surfaced by `generateInsights` lies
in `[0, 1]`, and whenever the returned source is not `"heuristic"` (the
empty-transcript default, the classifier path, and the LLM/hybrid paths)
it lies in the clamp interval `[0.05, 0.95]`; the heuristic keyword-ratio
fallback is clamped only to `[0, 1]` and can surface scores outside
`[0.05, 0.95]`. -/
theorem c1_score_bounds_amended (env : InsightsEnv) (c : String) (ps : List String) :
    (0 ≤ (generateInsights env c ps).1.sentiment_analysis.overall_score ∧
     (generateInsights env c ps).1.sentiment_analysis.overall_score ≤ 1) ∧
    ((generateInsights env c ps).1.source ≠ some "heuristic" →
      1/20 ≤ (generateInsights env c ps).1.sentiment_analysis.overall_score ∧
      (generateInsights env c ps).1.sentiment_analysis.overall_score ≤ 19/20) := by
  rcases generateInsights_shape env c ps with h | ⟨b, h⟩ | ⟨hf, src, sa, ed, rs, h⟩
  · rw [h]
    exact ⟨⟨by norm_num [baseInsights], by norm_num [baseInsights]⟩,
           fun _ => ⟨by norm_num [baseInsights], by norm_num [baseInsights]⟩⟩
  · rw [h]
    exact ⟨heurScore_mem (jsTrim c),
           fun hn => absurd (heuristicInsights_source b _) hn⟩
  · rw [h]
    have hb := mergeGroq_score_mem hf src sa ed rs
    exact ⟨⟨le_trans (by norm_num) hb.1, le_trans hb.2 (by norm_num)⟩, fun _ => hb⟩

/-- Witness for C1 (amended), at the empty transcript with no services. -/
theorem c1_score_bounds_witness :
    (0 ≤ (generateInsights envNoHosted "" []).1.sentiment_analysis.overall_score ∧
     (generateInsights envNoHosted "" []).1.sentiment_analysis.overall_score ≤ 1) ∧
    (1/20 ≤ (generateInsights envNoHosted "" []).1.sentiment_analysis.overall_score ∧
     (generateInsights envNoHosted "" []).1.sentiment_analysis.overall_score ≤ 19/20) :=
  ⟨(c1_score_bounds_amended envNoHosted "" []).1,
   (c1_score_bounds_amended envNoHosted "" []).2 (by decide)⟩

/-! ## Claim C2 -/

theorem mergeGroq_hf_fields (sc : ℚ) (lb : String) (src : Option String)
    (sa : SentimentData) (ed : SkillTable) (rs : List RoleSuggestion) :
    (mergeGroq (some (sc, lb)) src sa ed rs).sentiment_analysis.overall_score
      = clamp0595 sc ∧
    (mergeGroq (some (sc, lb)) src sa ed rs).source
      = some (if jsTruthyStr src then "hybrid" else "hf-sst2") := by
  constructor
  · simp only [mergeGroq]
    rw [if_pos (clamp0595_idem sc)]
  · rfl

theorem hfSentOf_c2Env : hfSentOf c2Env = some (9/10, "POSITIVE") := by
  have hge : (1 : ℚ)/10 ≤ 9/10 := by norm_num
  simp [hfSentOf, c2Env, computeHFSentiment, hge]
  norm_num

/-- C2 counterexample: classifier POSITIVE at 0.9, LLM success with the
three keys present and no `source` field of its own; the merged result has
source `"hf-sst2"`, not `"hybrid"` (the source code sets
`parsed.source ? "hybrid" : "hf-sst2"`, and a response without a truthy
`source` field takes the second branch). -/
theorem c2_counterexample :
    (generateInsights c2Env "hello" []).1.source = some "hf-sst2" ∧
    (generateInsights c2Env "hello" []).1.source ≠ some "hybrid" := by
  have hc : jsTrim "hello" ≠ "" := by decide
  have h := generateInsights_groqOk c2Env "hello" [] c2Raw
    { overall_score := 1/2, notes := none } [] [] hc rfl rfl rfl rfl rfl
  rw [h, hfSentOf_c2Env]
  exact ⟨rfl, by decide⟩

/-- C2 (amended): when the classifier succeeded and the LLM response passed
the three-key sanity check, the surfaced `overall_score` is the classifier
score clamped to `[0.05, 0.95]` (not the LLM's own sentiment number), and
the source is `"hybrid"` only when the LLM's own JSON carried a truthy
`source` field - otherwise it is `"hf-sst2"`. -/
theorem c2_hybrid_merge_amended (env : InsightsEnv) (c : String) (ps : List String)
    (raw : LLMRawInsights) (sa : SentimentData) (ed : SkillTable)
    (rs : List RoleSuggestion) (sc : ℚ) (lb : String)
    (hc : jsTrim c ≠ "") (hhf : hfSentOf env = some (sc, lb))
    (hgc : env.groqConfigured = true) (hgi : env.groqInsights = some raw)
    (hsa : raw.sentiment_analysis = some sa) (hed : raw.expertise_detection = some ed)
    (hrs : raw.role_suggestions = some rs) :
    (generateInsights env c ps).1.sentiment_analysis.overall_score = clamp0595 sc ∧
    (generateInsights env c ps).1.source
      = some (if jsTruthyStr raw.source then "hybrid" else "hf-sst2") := by
  rw [generateInsights_groqOk env c ps raw sa ed rs hc hgc hgi hsa hed hrs, hhf]
  exact mergeGroq_hf_fields sc lb raw.source sa ed rs

/-- Witness for C2 (amended) at the concrete classifier/LLM environment. -/
theorem c2_hybrid_merge_witness :
    (generateInsights c2Env "hello" []).1.sentiment_analysis.overall_score
      = clamp0595 (9/10) ∧
    (generateInsights c2Env "hello" []).1.source
      = some (if jsTruthyStr c2Raw.source then "hybrid" else "hf-sst2") :=
  c2_hybrid_merge_amended c2Env "hello" [] c2Raw
    { overall_score := 1/2, notes := none } [] [] (9/10) "POSITIVE"
    (by decide) hfSentOf_c2Env rfl rfl rfl rfl rfl

/-! ## Claim C3 -/

/-- C3: on an empty or whitespace-only transcript, `generateInsights`
returns exactly the neutral default insights and `generateSummary` returns
the constant summary, each with zero outbound network calls, for every
environment (in particular with both hosted services configured). -/
theorem c3_empty_transcript_defaults (env : InsightsEnv) (c : String)
    (ps : List String) (h : jsTrim c = "") :
    generateInsights env c ps = (baseInsights, 0) ∧
    generateSummary env c = ("No conversation captured.", 0) ∧
    baseInsights.sentiment_analysis.overall_score = 1/2 ∧
    baseInsights.expertise_detection = [] ∧
    baseInsights.role_suggestions = [] := by
  refine ⟨generateInsights_empty env c ps h, ?_, rfl, rfl, rfl⟩
  simp [generateSummary, h]

/-- Witness for C3 at a whitespace-only transcript, with both hosted
services configured (so the zero call count is not vacuous). -/
theorem c3_empty_transcript_witness :
    generateInsights c2Env " \n\t " [] = (baseInsights, 0) ∧
    generateSummary c2Env " \n\t " = ("No conversation captured.", 0) ∧
    baseInsights.sentiment_analysis.overall_score = 1/2 ∧
    baseInsights.expertise_detection = [] ∧
    baseInsights.role_suggestions = [] :=
  c3_empty_transcript_defaults c2Env " \n\t " [] (by decide)

/-! ## Claim C4 -/

/-- C4 counterexample: the transcript `"backend user interface"` contains
`backend` and none of `frontend`/`ui`/`ux` and none of the implementation
family, yet `createFallbackPlan` emits two phases (the frontend condition
also matches the substring `user interface`, which the claim omits). -/
theorem c4_counterexample :
    containsSub (lowerStr c4Text) "backend" = true ∧
    containsSub (lowerStr c4Text) "frontend" = false ∧
    containsSub (lowerStr c4Text) "ui" = false ∧
    containsSub (lowerStr c4Text) "ux" = false ∧
    containsSub (lowerStr c4Text) "implementation" = false ∧
    containsSub (lowerStr c4Text) "deployment" = false ∧
    containsSub (lowerStr c4Text) "launch" = false ∧
    containsSub (lowerStr c4Text) "delivery" = false ∧
    (createFallbackPlan c4Text "Meeting").phases.map PlanPhase.name
      = ["Frontend Development", "Backend Development"] := by
  decide

/-- C4 (amended): when the lower-cased transcript contains `backend` and
none of the four frontend-family keywords (`frontend`, `ui`, `ux`, `user
interface` - the last is checked by the code but missing from the claim)
and none of the implementation-family keywords, the fallback plan has
exactly the single canned `Backend Development` phase. -/
theorem c4_backend_only_amended (t n : String)
    (hb : containsSub (lowerStr t) "backend" = true)
    (h1 : containsSub (lowerStr t) "frontend" = false)
    (h2 : containsSub (lowerStr t) "ui" = false)
    (h3 : containsSub (lowerStr t) "ux" = false)
    (h4 : containsSub (lowerStr t) "user interface" = false)
    (h5 : containsSub (lowerStr t) "implementation" = false)
    (h6 : containsSub (lowerStr t) "deployment" = false)
    (h7 : containsSub (lowerStr t) "launch" = false)
    (h8 : containsSub (lowerStr t) "delivery" = false) :
    (createFallbackPlan t n).phases = [backendPhase] := by
  simp [createFallbackPlan, hb, h1, h2, h3, h4, h5, h6, h7, h8]

/-- Witness for C4 (amended) at the one-word transcript `"backend"`. -/
theorem c4_backend_only_witness :
    (createFallbackPlan "backend" "m").phases = [backendPhase] :=
  c4_backend_only_amended "backend" "m" (by decide) (by decide) (by decide)
    (by decide) (by decide) (by decide) (by decide) (by decide) (by decide)

/-! ## Claim C5 -/

theorem foldl_taskCount (l : List PlanPhase) (n : ℕ) :
    l.foldl (fun s ph => s + ph.tasks.length) n
      = n + (l.map fun ph => ph.tasks.length).sum := by
  induction l generalizing n with
  | nil => simp
  | cons a l ih => simp [ih]; omega

theorem planTaskCount_eq (l : List PlanPhase) :
    planTaskCount l = (l.map fun ph => ph.tasks.length).sum := by
  simpa [planTaskCount] using foldl_taskCount l 0

theorem phaseShape_encode (ph : PlanPhase) :
    phaseShape (encodePhase ph) = some ph.tasks.length := by
  simp [phaseShape, encodePhase, JVal.getField, JVal.asArr]

theorem phasesShape_encode (ps : List PlanPhase) :
    phasesShape (encodePhases ps) = some (ps.map fun ph => ph.tasks.length) := by
  induction ps with
  | nil => rfl
  | cons a l ih =>
    have ih' : phaseShapes (l.map encodePhase)
        = some (l.map fun ph => ph.tasks.length) := by
      simpa [phasesShape, encodePhases, JVal.asArr] using ih
    simp [phasesShape, encodePhases, JVal.asArr, phaseShapes,
          phaseShape_encode, ih']

/-- C5 counterexample: a parsed (non-fallback) LLM plan is persisted with
its `workloadAnalysis` verbatim; here the LLM reported `totalTasks = 5`
while the plan holds a single task, and the pipeline stores it unchanged,
so `totalTasks` does not equal the task count across phases. -/
theorem c5_counterexample :
    (PlanResp.planOf (subtasksPOST c5Env)).map
        (fun p => (p.workloadAnalysis.totalTasks,
                   (p.phases.map fun ph => ph.tasks.length).sum))
      = some ((5 : ℚ), (1 : ℕ)) ∧ ((5 : ℚ) ≠ ((1 : ℕ) : ℚ)) :=
  ⟨rfl, by norm_num⟩

/-- C5 (amended): re-parsing the persisted phases blob recovers the phase
count and per-phase task counts for every plan the pipeline writes; the
`workloadAnalysis.totalTasks = sum of tasks` equation holds for plans from
the deterministic fallback planner (which computes it), but not in general
for parsed LLM plans, whose `workloadAnalysis` is persisted verbatim. -/
theorem c5_roundtrip_amended :
    (∀ ps : List PlanPhase,
        phasesShape (encodePhases ps) = some (ps.map fun ph => ph.tasks.length) ∧
        (ps.map fun ph => ph.tasks.length).length = ps.length) ∧
    (∀ t n : String,
        (createFallbackPlan t n).workloadAnalysis.totalTasks
          = (((createFallbackPlan t n).phases.map fun ph => ph.tasks.length).sum : ℚ)) := by
  constructor
  · intro ps
    exact ⟨phasesShape_encode ps, by simp⟩
  · intro t n
    simp only [createFallbackPlan]
    rw [planTaskCount_eq]
    push_cast
    rw [List.map_map]
    rfl

/-! ## Claim C6 -/

/-- C6 counterexample: the transcript fetch returned non-2xx
(`tfetchOk = false`) with a JSON body, yet the operation succeeds (the
handler never reads `transcriptResponse.ok`). -/
theorem c6_counterexample :
    c6Env.tfetchOk = false ∧ (subtasksPOST c6Env).status = 200 :=
  ⟨rfl, rfl⟩

/-- C6 (amended): a non-2xx LLM-proxy response fails the whole operation,
and a parse failure of a 2xx LLM response is downgraded to the fallback
plan with the operation still succeeding - but the transcript fetch's HTTP
status is never consulted: the response is identical for any value of
`tfetchOk`, and only a non-JSON transcript body (a thrown `.json()`) fails
the operation. -/
theorem c6_failure_semantics_amended :
    (∀ (env : PlanEnv) (mid : Option String) (nm : String) (tr : Option String)
        (resp : AiResp),
        env.reqBody = some mid → jsTruthyStr mid = true → env.meeting = some nm →
        env.tfetchJson = some tr → env.aiFetch = some resp → resp.ok = false →
        subtasksPOST env = PlanResp.failed) ∧
    (∀ (env : PlanEnv) (mid : Option String) (nm : String) (tr : Option String),
        env.reqBody = some mid → jsTruthyStr mid = true → env.meeting = some nm →
        env.tfetchJson = some tr →
        env.aiFetch = some { ok := true, json := some none } →
        env.dbInsertsOk = true →
        subtasksPOST env = PlanResp.ok (createFallbackPlan (jsStrOr tr "") nm)) ∧
    (∀ (env : PlanEnv) (b : Bool),
        subtasksPOST { env with tfetchOk := b } = subtasksPOST env) := by
  refine ⟨?_, ?_, ?_⟩
  · intro env mid nm tr resp h1 h2 h3 h4 h5 h6
    simp [subtasksPOST, h1, h2, h3, h4, h5, h6]
  · intro env mid nm tr h1 h2 h3 h4 h5 h6
    simp [subtasksPOST, h1, h2, h3, h4, h5, h6]
  · intro env b
    cases env
    rfl

/-- Witness for C6 (amended): a failed LLM-proxy call fails the operation;
a parse failure of a 2xx call still succeeds with the fallback plan. -/
theorem c6_failure_semantics_witness :
    subtasksPOST { c6Env with aiFetch := some { ok := false, json := none } }
      = PlanResp.failed ∧
    subtasksPOST c6Env = PlanResp.ok (createFallbackPlan "" "Kickoff") :=
  ⟨c6_failure_semantics_amended.1 _ (some "m1") "Kickoff" none
      { ok := false, json := none } rfl (by decide) rfl rfl rfl rfl,
   c6_failure_semantics_amended.2.1 c6Env (some "m1") "Kickoff" none
      rfl (by decide) rfl rfl rfl rfl⟩

/-! ## Claim C7 -/

/-- C7 counterexample: a well-formed request for a meeting id that is
absent from the database succeeds with 200 - the route performs no meeting
lookup and never returns 404 (contradicting the claim that a 404 is issued
before the pipeline runs). -/
theorem c7_counterexample :
    (meetingCompletePOST c7Env).status = 200 ∧
    c7Env.dbMeetings.contains "m1" = false :=
  ⟨rfl, rfl⟩

/-- C7 (amended): the insight pipeline is total (every environment yields a
well-formed response, so no step raises past the handler), and the
caller-visible responses are exactly 200/400/500 - never 404; the response
is independent of which meetings exist in the database, and a falsy
`meetingId` yields the 400 issued before the pipeline runs. -/
theorem c7_failure_semantics_amended :
    (∀ env : CompleteEnv,
        (meetingCompletePOST env).status = 200 ∨
        (meetingCompletePOST env).status = 400 ∨
        (meetingCompletePOST env).status = 500) ∧
    (∀ env : CompleteEnv, (meetingCompletePOST env).status ≠ 404) ∧
    (∀ (env : CompleteEnv) (ms ms' : List String),
        meetingCompletePOST { env with dbMeetings := ms }
          = meetingCompletePOST { env with dbMeetings := ms' }) ∧
    (∀ (env : CompleteEnv) (mid conv : Option String),
        env.body = some (mid, conv) → jsTruthyStr mid = false →
        meetingCompletePOST env = CompleteResp.badRequest) := by
  refine ⟨?_, ?_, ?_, ?_⟩
  · intro env
    cases meetingCompletePOST env <;> simp [CompleteResp.status]
  · intro env
    cases meetingCompletePOST env <;> simp [CompleteResp.status]
  · intro env ms ms'
    cases env
    rfl
  · intro env mid conv h1 h2
    simp [meetingCompletePOST, h1, h2]

/-- Witness for C7 (amended), at the absent-meeting environment and at a
request with a missing `meetingId`. -/
theorem c7_failure_semantics_witness :
    ((meetingCompletePOST c7Env).status = 200 ∨
     (meetingCompletePOST c7Env).status = 400 ∨
     (meetingCompletePOST c7Env).status = 500) ∧
    (meetingCompletePOST c7Env).status ≠ 404 ∧
    meetingCompletePOST { c7Env with body := some (none, some "hi") }
      = CompleteResp.badRequest :=
  ⟨c7_failure_semantics_amended.1 c7Env,
   c7_failure_semantics_amended.2.1 c7Env,
   c7_failure_semantics_amended.2.2.2 _ none (some "hi") rfl rfl⟩

/-! ## Claim C8 -/

theorem min_shift (x c : ℚ) (hc : 0 ≤ c) :
    min 1 (min 1 x + c) = min 1 (x + c) := by
  rcases le_total x 1 with h | h
  · rw [min_eq_right h]
  · rw [min_eq_left h, min_eq_left (by linarith), min_eq_left (by linarith)]

theorem bumpIter_closed (k : ℕ) :
    bumpIter (k + 1) = some (jsMin 1 (1/2 + (k + 1) * (1/5))) := by
  induction k with
  | zero =>
    show some (bumpConf none) = _
    simp only [bumpConf, jsRatOr]
    norm_num
  | succ n ih =>
    have hv : (0 : ℚ) < jsMin 1 (1/2 + ((n : ℚ) + 1) * (1/5)) := by
      rw [jsMin_eq]
      exact lt_min one_pos (by positivity)
    have step : bumpIter (n + 1 + 1) = some (bumpConf (bumpIter (n + 1))) := rfl
    rw [step, ih]
    simp only [bumpConf, jsRatOr]
    rw [if_neg (ne_of_gt hv)]
    simp only [jsMin_eq]
    rw [min_shift _ _ (by norm_num : (0:ℚ) ≤ 1/5)]
    congr 1
    push_cast
    ring_nf

/-- C8: on the transcript `Alice: I'm good at React` with no hosted-model
access, the heuristic path records skill `react` for user `Alice` with
confidence `bumpConf none = 0.7 ≥ 0.5` and proposes role `Frontend Lead`
for `Alice`; and, in general, the confidence after `k + 1` mentions of the
same skill by the same speaker is `min(1, 0.5 + 0.2 * (k + 1))` - each
mention adds `0.2`, capped at `1`. -/
theorem c8_heuristic_expertise :
    (((generateInsights envNoHosted c8Text ["Alice"]).1.expertise_detection.find?
        (fun e => e.1 = "Alice")).map
        (fun e => e.2.find? (fun sk => sk.1 = "react"))
      = some (some ("react", bumpConf none))) ∧
    bumpConf none = 7/10 ∧
    (1/2 : ℚ) ≤ 7/10 ∧
    ((generateInsights envNoHosted c8Text ["Alice"]).1.role_suggestions.any
        (fun r => r.role = "Frontend Lead" && r.user = "Alice") = true) ∧
    (∀ k : ℕ, bumpIter (k + 1) = some (jsMin 1 (1/2 + (k + 1) * (1/5)))) := by
  refine ⟨rfl, ?_, by norm_num, rfl, bumpIter_closed⟩
  simp only [bumpConf, jsRatOr]
  norm_num [jsMin]

/-! ## Claim C9 -/

theorem speakSeq_cancelled (env : ℕ → TtsFlags) (cr : Bool)
    (chunks : List String) (t : ℕ) (h : ttsCancelled (env t) = true) :
    speakSeq env cr chunks t
      = { played := [], speaking := false, resumedRecognition := false } := by
  cases chunks <;> simp [speakSeq, h]

theorem speakSeq_speaking (env : ℕ → TtsFlags) (cr : Bool) :
    ∀ (chunks : List String) (t : ℕ), (speakSeq env cr chunks t).speaking = false := by
  intro chunks
  induction chunks with
  | nil =>
    intro t
    by_cases h : ttsCancelled (env t) = true <;> simp [speakSeq, h]
  | cons c rest ih =>
    intro t
    by_cases h : ttsCancelled (env t) = true
    · simp [speakSeq, h]
    · by_cases h2 : ttsCancelled (env (t + 1)) = true
      · simp [speakSeq, h, h2]
      · simp [speakSeq, h, h2, ih (t + 2)]

/-- C9: once a stop is requested - any of `shuttingDown`, `stopRequested`
or the mute flag observed true at a checkpoint - the `speakChunkAt` run
plays no further chunk, leaves `speaking = false`, and does not auto-resume
the recognizer; every run ends with `speaking = false` on every exit path;
and `handleToggleAIMute`, when muting, itself sets `stopRequested` (so a
user mute triggers exactly this cancellation). -/
theorem c9_cancellation :
    (∀ (env : ℕ → TtsFlags) (cr : Bool) (chunks : List String) (t : ℕ),
        ttsCancelled (env t) = true →
        speakSeq env cr chunks t
          = { played := [], speaking := false, resumedRecognition := false }) ∧
    (∀ (env : ℕ → TtsFlags) (cr : Bool) (chunks : List String) (t : ℕ),
        (speakSeq env cr chunks t).speaking = false) ∧
    (∀ (env : ℕ → TtsFlags) (cr : Bool) (chunks : List String) (t : ℕ),
        (env t).stopRequested = true →
        (speakSeq env cr chunks t).played = [] ∧
        (speakSeq env cr chunks t).resumedRecognition = false) ∧
    (∀ f : TtsFlags, f.aiMuted = false →
        (handleToggleAIMute f).stopRequested = true ∧
        ttsCancelled (handleToggleAIMute f) = true) := by
  refine ⟨speakSeq_cancelled, fun env cr chunks t => speakSeq_speaking env cr chunks t,
          ?_, ?_⟩
  · intro env cr chunks t h
    have hcanc : ttsCancelled (env t) = true := by
      simp [ttsCancelled, h]
    rw [speakSeq_cancelled env cr chunks t hcanc]
    exact ⟨rfl, rfl⟩
  · intro f h
    constructor
    · simp [handleToggleAIMute, h]
    · simp [handleToggleAIMute, h, ttsCancelled]

/-- Witness for C9 at a constant stop-requested flag state and a concrete
mute event. -/
theorem c9_cancellation_witness :
    speakSeq (fun _ => stopFlags) true ["hello", "world"] 0
      = { played := [], speaking := false, resumedRecognition := false } ∧
    (handleToggleAIMute
        { stopRequested := false, shuttingDown := false, aiMuted := false }).stopRequested
      = true :=
  ⟨c9_cancellation.1 (fun _ => stopFlags) true ["hello", "world"] 0 (by decide),
   (c9_cancellation.2.2.2
      { stopRequested := false, shuttingDown := false, aiMuted := false } rfl).1⟩

/-! ## Claim C10 -/

theorem computeHF_single_pos :
    computeHFSentiment (some [{ label := "POSITIVE", score := 9/10 }])
      = some (9/10, "POSITIVE") := by
  have hge : (0 : ℚ) ≤ 9/10 := by norm_num
  simp [computeHFSentiment, hge]

/-- C10: when the transcript is non-empty, the classifier succeeded (its
score and note were recorded in the intermediate object `hfBase`), and the
LLM step is unconfigured or fails, `generateInsights` returns
source `"heuristic"`, an overall score equal to the raw keyword ratio
`(pos + 1) / (pos + neg + 2)`, and notes consisting of exactly the
heuristic note - the classifier-derived score and note recorded earlier do
not survive to the returned insights. -/
theorem c10_heuristic_overwrites (env : InsightsEnv) (c : String)
    (ps : List String) (sc : ℚ) (lb : String)
    (hc : jsTrim c ≠ "") (hk : env.hfKey = true)
    (hhf : computeHFSentiment env.hfResp = some (sc, lb))
    (hg : groqStepFails env = true) :
    (hfBase env).source = some "hf-sst2" ∧
    (hfBase env).sentiment_analysis.notes = some [hfNote lb sc] ∧
    (generateInsights env c ps).1.source = some "heuristic" ∧
    (generateInsights env c ps).1.sentiment_analysis.overall_score
      = ((countKw posKeywords (lowerStr (jsTrim c)) : ℚ) + 1) /
        ((countKw posKeywords (lowerStr (jsTrim c)) : ℚ)
          + countKw negKeywords (lowerStr (jsTrim c)) + 2) ∧
    (generateInsights env c ps).1.sentiment_analysis.notes
      = some [heurNote (heurScore (jsTrim c))] := by
  have h := generateInsights_groqFails env c ps hc hg
  refine ⟨?_, ?_, ?_, ?_, ?_⟩
  · simp [hfBase, hfSentOf, hk, hhf]
  · simp [hfBase, hfSentOf, hk, hhf]
  · rw [h, heuristicInsights_source]
  · rw [h, heuristicInsights_score, heurScore_eq]
  · rw [h, heuristicInsights_notes]

/-- Witness for C10 at a concrete classifier-only environment. -/
theorem c10_heuristic_overwrites_witness :
    (hfBase c10Env).source = some "hf-sst2" ∧
    (hfBase c10Env).sentiment_analysis.notes
      = some [hfNote "POSITIVE" (9/10)] ∧
    (generateInsights c10Env "ok then" []).1.source = some "heuristic" ∧
    (generateInsights c10Env "ok then" []).1.sentiment_analysis.overall_score
      = ((countKw posKeywords (lowerStr (jsTrim "ok then")) : ℚ) + 1) /
        ((countKw posKeywords (lowerStr (jsTrim "ok then")) : ℚ)
          + countKw negKeywords (lowerStr (jsTrim "ok then")) + 2) ∧
    (generateInsights c10Env "ok then" []).1.sentiment_analysis.notes
      = some [heurNote (heurScore (jsTrim "ok then"))] :=
  c10_heuristic_overwrites c10Env "ok then" [] (9/10) "POSITIVE"
    (by decide) rfl computeHF_single_pos rfl
